import Mathlib

/-!
Verification of the Baikal OBJ scene loader (`Baikal/SceneGraph/IO/scene_io.cpp`):
mesh splitting/deduplication, material classification, the material and texture
caches, and area-light generation for emissive meshes.

Colors are modelled as rational triples (the source uses `float`; all the
comparisons the loader performs are sign tests and a `< 0.01` threshold, which
the rational model reflects exactly on the inputs considered here).
-/

/-- A 3-component vector, as `RadeonRays::float3` is used by the loader. -/
structure float3 where
  x : ℚ
  y : ℚ
  z : ℚ
deriving DecidableEq, Repr

/-- Squared norm, as `float3::sqnorm()`. -/
def float3.sqnorm (v : float3) : ℚ := v.x * v.x + v.y * v.y + v.z * v.z

/-- A raw material record, mirroring the `tinyobj::material_t` fields the
loader reads: name, flat colors, and the three optional texture names. -/
structure material_t where
  name : String
  diffuse : float3
  specular : float3
  transmittance : float3
  emission : float3
  diffuse_texname : String
  specular_texname : String
  bump_texname : String
deriving DecidableEq, Repr

/-- A raw shape, mirroring the `tinyobj::shape_t::mesh` arrays the loader
reads: flat position/normal/texcoord buffers, per-face vertex counts, the
flattened vertex-index list, and per-face material ids (negative = none). -/
structure shape_t where
  positions : List ℚ
  normals : List ℚ
  texcoords : List ℚ
  num_vertices : List Nat
  indices : List Nat
  material_ids : List Int
deriving DecidableEq, Repr

/-- Association-list lookup; the pure model of `std::map::find` used for the
material cache, the texture cache and the old-index → new-index map (keys are
kept distinct by construction, so first-match lookup is the map semantics). -/
def assocFind {α β : Type} [DecidableEq α] : List (α × β) → α → Option β
  | [], _ => none
  | (k, v) :: rest, key => if k = key then some v else assocFind rest key

/-- The accumulation state of the splitting loop in `SceneIoObj::LoadScene`:
the `used_indices` old→new map (in insertion order), the remapped index
buffer, and the collected vertex/normal/texcoord data. -/
structure SplitState where
  used_indices : List (Nat × Nat)
  indices : List Nat
  vertices : List ℚ
  normals : List ℚ
  texcoords : List ℚ
deriving DecidableEq, Repr

/-- The empty initial split state. -/
def initSplit : SplitState := ⟨[], [], [], [], []⟩

/-- One vertex reference of a matching face, as in the inner loop of
`LoadScene`: `used_indices.emplace(old_index, vertices.size() / 3)`; on fresh
insertion the position/normal (and texcoord when present) data is appended,
and in either case the compact index is pushed onto the index buffer. -/
def processVertex (shape : shape_t) (st : SplitState) (old_index : Nat) : SplitState :=
  match assocFind st.used_indices old_index with
  | some new_index => { st with indices := st.indices ++ [new_index] }
  | none =>
    let new_index := st.vertices.length / 3
    { used_indices := st.used_indices ++ [(old_index, new_index)]
      indices := st.indices ++ [new_index]
      vertices := st.vertices ++
        [shape.positions.getD (3 * old_index) 0,
         shape.positions.getD (3 * old_index + 1) 0,
         shape.positions.getD (3 * old_index + 2) 0]
      normals := st.normals ++
        [shape.normals.getD (3 * old_index) 0,
         shape.normals.getD (3 * old_index + 1) 0,
         shape.normals.getD (3 * old_index + 2) 0]
      texcoords :=
        if shape.texcoords.isEmpty then st.texcoords
        else st.texcoords ++
          [shape.texcoords.getD (2 * old_index) 0,
           shape.texcoords.getD (2 * old_index + 1) 0] }

/-- The vertex references of face `i`, in order: `num_vertices[i]` entries read
at `indices[num_face_vertices * i + j]`, exactly the loader's indexing. -/
def faceRefs (shape : shape_t) (i : Nat) : List Nat :=
  let nfv := shape.num_vertices.getD i 0
  (List.range nfv).map (fun j => shape.indices.getD (nfv * i + j) 0)

/-- One face of the outer loop: faces whose material id differs from the
target are skipped entirely; matching faces process each vertex reference. -/
def processFace (shape : shape_t) (used_material : Int) (st : SplitState) (i : Nat) : SplitState :=
  if shape.material_ids.getD i 0 = used_material then
    (faceRefs shape i).foldl (processVertex shape) st
  else st

/-- The full splitting loop of `LoadScene` for one (shape, material id) pair. -/
def splitShape (shape : shape_t) (used_material : Int) : SplitState :=
  (List.range shape.material_ids.length).foldl (processFace shape used_material) initSplit

/-- The flat list of original vertex indices referenced by the faces matching
the target material id, in processing order. -/
def matchingRefs (shape : shape_t) (used_material : Int) : List Nat → List Nat
  | [] => []
  | i :: is =>
    (if shape.material_ids.getD i 0 = used_material then faceRefs shape i else []) ++
      matchingRefs shape used_material is

/-- All original vertex indices referenced by faces carrying the target id. -/
def referencedIndices (shape : shape_t) (used_material : Int) : List Nat :=
  matchingRefs shape used_material (List.range shape.material_ids.length)

/-- Folding the per-vertex step over an explicit reference list. -/
def splitRun (shape : shape_t) (refs : List Nat) : SplitState :=
  refs.foldl (processVertex shape) initSplit

/-- First-occurrence deduplication of a list, left to right. -/
def firstOcc (l : List Nat) : List Nat :=
  l.foldl (fun acc a => if a ∈ acc then acc else acc ++ [a]) []

/-- Chunk a flat float list into consecutive pairs, as `SetUVs` reinterprets
the raw texcoord floats as `float2` entries. -/
def pairUp : List ℚ → List (ℚ × ℚ)
  | [] => []
  | [_] => []
  | a :: b :: rest => (a, b) :: pairUp rest

/-- Modelled from the spec: the output `Mesh` entity (`shape.h` is not part of
the sources); it owns the deduplicated position/normal buffers, an always
populated UV buffer, and the compact index buffer. -/
structure Mesh where
  positions : List ℚ
  normals : List ℚ
  uvs : List (ℚ × ℚ)
  indices : List Nat
deriving DecidableEq, Repr

/-- The vertex count of a mesh, as `vertices.size() / 3` in `LoadScene`. -/
def Mesh.vertexCount (m : Mesh) : Nat := m.positions.length / 3

/-- Mesh construction after the splitting loop in `LoadScene`: set vertices,
normals and indices from the collected buffers; if there are no UVs, fill the
UV buffer with `(0,0)` for every vertex. -/
def buildMesh (shape : shape_t) (used_material : Int) : Mesh :=
  let st := splitShape shape used_material
  let num_vertices := st.vertices.length / 3
  let num_uvs := st.texcoords.length / 2
  { positions := st.vertices
    normals := st.normals
    uvs := if num_uvs ≠ 0 then pairUp st.texcoords
           else List.replicate num_vertices (0, 0)
    indices := st.indices }

/-- Modelled from the spec: a decoded texture (`texture.h` is not part of the
sources); it carries the name stamped by `SetName` and an allocation id that
stands for the instance identity of the underlying shared pointer. -/
structure Texture where
  name : String
  id : Nat
deriving DecidableEq, Repr

/-- Modelled from the spec: the layer bitmask of `UberV2Material::Layers`
(`uberv2material.h` is not part of the sources), as one flag per layer. -/
structure Layers where
  emission : Bool
  diffuse : Bool
  reflection : Bool
  refraction : Bool
  shadingNormal : Bool
deriving DecidableEq, Repr

/-- The empty layer mask. -/
def Layers.empty : Layers := ⟨false, false, false, false, false⟩

/-- The `kEmissionLayer` mask. -/
def Layers.kEmissionLayer : Layers := ⟨true, false, false, false, false⟩

/-- The `kDiffuseLayer` mask. -/
def Layers.kDiffuseLayer : Layers := ⟨false, true, false, false, false⟩

/-- The `kReflectionLayer` mask. -/
def Layers.kReflectionLayer : Layers := ⟨false, false, true, false, false⟩

/-- The `kRefractionLayer` mask. -/
def Layers.kRefractionLayer : Layers := ⟨false, false, false, true, false⟩

/-- The `kShadingNormalLayer` mask. -/
def Layers.kShadingNormalLayer : Layers := ⟨false, false, false, false, true⟩

/-- Bitwise or of two layer masks, as the `|` / `|=` on the `layers` word. -/
def Layers.or (a b : Layers) : Layers :=
  ⟨a.emission || b.emission, a.diffuse || b.diffuse, a.reflection || b.reflection,
   a.refraction || b.refraction, a.shadingNormal || b.shadingNormal⟩

/-- Modelled from the spec: the input-graph nodes (`inputmaps.h` is not part
of the sources) that the loader builds: constants, texture samplers, the
gamma power node and the bump remap node. -/
inductive InputMap where
  | constantFloat : ℚ → InputMap
  | constantFloat3 : float3 → InputMap
  | sampler : Option Texture → InputMap
  | samplerBumpMap : Option Texture → InputMap
  | pow : InputMap → InputMap → InputMap
  | remap : InputMap → InputMap → InputMap → InputMap
deriving DecidableEq, Repr

/-- Modelled from the spec: a `Material` (`material.h` is not part of the
sources): an allocation id standing for instance identity, the stamped name,
the named input slots (most recent write first), and the enabled layers. -/
structure Material where
  id : Nat
  name : String
  inputs : List (String × InputMap)
  layers : Layers
deriving DecidableEq, Repr

/-- Modelled from the spec: `SetInputValue` assigns a named slot; the newest
write is recorded first so lookup returns the final value of the slot. -/
def Material.setInput (m : Material) (slot : String) (v : InputMap) : Material :=
  { m with inputs := (slot, v) :: m.inputs }

/-- The current value of a named input slot (the most recent write). -/
def Material.getInput (m : Material) (slot : String) : Option InputMap :=
  assocFind m.inputs slot

/-- Modelled from the spec: `UberV2Material::SetLayers` replaces the mask. -/
def Material.setLayers (m : Material) (l : Layers) : Material :=
  { m with layers := l }

/-- Modelled from the spec: `SetName` stamps the material's name. -/
def Material.setName (m : Material) (n : String) : Material :=
  { m with name := n }

/-- Modelled from the spec: `Material::HasEmission` holds when the emission
layer is enabled. -/
def Material.hasEmission (m : Material) : Bool := m.layers.emission

/-- `UberV2Material::Create()`: a fresh material with the given allocation
id, no name, no inputs and no layers. -/
def UberV2Create (id : Nat) : Material := ⟨id, "", [], Layers.empty⟩

/-- A placeholder material used only as the out-of-range default of
`materials[used_material]` (the source indexes unchecked). -/
def Material.dummy : Material := UberV2Create 0

/-- The mutable state threaded through the loader: the name-keyed material
cache (`m_material_cache`), the name-keyed texture cache (`m_texture_cache`),
an allocation counter providing fresh instance ids, and two ghost logs used
only by the verification: the paths handed to the image decoder and the
material names whose classification procedure actually ran. -/
structure LoaderState where
  material_cache : List (String × Material)
  texture_cache : List (String × Texture)
  next_id : Nat
  decode_log : List String
  translate_log : List String
deriving DecidableEq, Repr

/-- The fresh loader state. -/
def initLoader : LoaderState := ⟨[], [], 0, [], []⟩

/-- `SceneIo::LoadTexture`: return the cached texture when the name was
already loaded; otherwise hand `basepath + name` to the image decoder
(`decode` is the external collaborator: `true` = decodes, `false` = throws).
On success the texture is stamped with the name, cached under the name and
returned; on failure nothing is cached and the null reference is returned.
The decode attempt is recorded in the ghost `decode_log`. -/
def LoadTexture (decode : String → Bool) (basepath : String) (st : LoaderState)
    (name : String) : Option Texture × LoaderState :=
  match assocFind st.texture_cache name with
  | some texture => (some texture, st)
  | none =>
    let st1 : LoaderState := { st with decode_log := st.decode_log ++ [basepath ++ name] }
    if decode (basepath ++ name) then
      let texture : Texture := ⟨name, st1.next_id⟩
      (some texture,
        { st1 with
          texture_cache := st1.texture_cache ++ [(name, texture)]
          next_id := st1.next_id + 1 })
    else
      (none, st1)

/-- The gamma exponent `2.2f` used for texture color correction. -/
def gammaPower : ℚ := 22 / 10

/-- The `InputMap_Pow(Sampler(texture), 2.2)` graph built for texture slots. -/
def gammaSampler (texture : Option Texture) : InputMap :=
  InputMap.pow (InputMap.sampler texture) (InputMap.constantFloat gammaPower)

/-- The bump remap graph: `Remap((0,1,0), (-1,1,0), SamplerBumpMap(texture))`. -/
def bumpRemap (texture : Option Texture) : InputMap :=
  InputMap.remap (InputMap.constantFloat3 ⟨0, 1, 0⟩) (InputMap.constantFloat3 ⟨-1, 1, 0⟩)
    (InputMap.samplerBumpMap texture)

/-- The shared bump handling: when a bump texture is named, load it, assign
the remapped sampler to `uberv2.shading_normal` and add the shading-normal
layer bit; otherwise leave material and layers unchanged. -/
def applyBump (decode : String → Bool) (basepath : String) (st : LoaderState)
    (mat : material_t) (material : Material) (layers : Layers) :
    Material × Layers × LoaderState :=
  if mat.bump_texname ≠ "" then
    let texture := (LoadTexture decode basepath st mat.bump_texname).1
    let st1 := (LoadTexture decode basepath st mat.bump_texname).2
    (material.setInput "uberv2.shading_normal" (bumpRemap texture),
      layers.or Layers.kShadingNormalLayer, st1)
  else
    (material, layers, st)

/-- The emission branch of `TranslateMaterial` (emission squared norm > 0):
the emission color slot comes from the gamma-corrected diffuse texture when
one is named, else from the flat emission color, and the layer mask is set to
exactly `kEmissionLayer`. -/
def emissionBranch (decode : String → Bool) (basepath : String) (st : LoaderState)
    (mat : material_t) : Material × LoaderState :=
  let material := UberV2Create st.next_id
  let st0 : LoaderState := { st with next_id := st.next_id + 1 }
  let r :=
    if mat.diffuse_texname ≠ "" then
      let texture := (LoadTexture decode basepath st0 mat.diffuse_texname).1
      let st1 := (LoadTexture decode basepath st0 mat.diffuse_texname).2
      (material.setInput "uberv2.emission.color" (gammaSampler texture), st1)
    else
      (material.setInput "uberv2.emission.color" (InputMap.constantFloat3 mat.emission), st0)
  (r.1.setLayers Layers.kEmissionLayer, r.2)

/-- The refraction + diffuse + reflection branch (transmittance and specular
both non-zero). Note the source writes the sampled specular texture to the
misspelled slot `"uberv2.reflecton.color"`; the flat specular color goes to
the correctly spelled slot. The refraction color is always the flat
transmittance color. -/
def refrDiffReflBranch (decode : String → Bool) (basepath : String) (st : LoaderState)
    (mat : material_t) : Material × LoaderState :=
  let layers := (Layers.kDiffuseLayer.or Layers.kReflectionLayer).or Layers.kRefractionLayer
  let material := UberV2Create st.next_id
  let st0 : LoaderState := { st with next_id := st.next_id + 1 }
  let material := material.setInput "uberv2.reflection.ior" (InputMap.constantFloat 3)
  let material := material.setInput "uberv2.refraction.ior" (InputMap.constantFloat 3)
  let material := material.setInput "uberv2.reflection.roughness" (InputMap.constantFloat (1 / 100))
  let material := material.setInput "uberv2.refraction.roughness" (InputMap.constantFloat (1 / 100))
  let material := material.setInput "uberv2.reflection.metalness" (InputMap.constantFloat 1)
  let r1 :=
    if mat.diffuse_texname ≠ "" then
      let texture := (LoadTexture decode basepath st0 mat.diffuse_texname).1
      let st1 := (LoadTexture decode basepath st0 mat.diffuse_texname).2
      (material.setInput "uberv2.diffuse.color" (gammaSampler texture), st1)
    else
      (material.setInput "uberv2.diffuse.color" (InputMap.constantFloat3 mat.diffuse), st0)
  let r2 :=
    if mat.specular_texname ≠ "" then
      let texture := (LoadTexture decode basepath r1.2 mat.specular_texname).1
      let st2 := (LoadTexture decode basepath r1.2 mat.specular_texname).2
      (r1.1.setInput "uberv2.reflecton.color" (gammaSampler texture), st2)
    else
      (r1.1.setInput "uberv2.reflection.color" (InputMap.constantFloat3 mat.specular), r1.2)
  let r3 := applyBump decode basepath r2.2 mat r2.1 layers
  let material := r3.1.setInput "uberv2.refraction.color" (InputMap.constantFloat3 mat.transmittance)
  (material.setLayers r3.2.1, r3.2.2)

/-- The reflection-only branch (diffuse squared norm < 0.01, specular
non-zero). The same misspelled `"uberv2.reflecton.color"` slot receives the
sampled specular texture; the flat specular color goes to the correct slot. -/
def reflBranch (decode : String → Bool) (basepath : String) (st : LoaderState)
    (mat : material_t) : Material × LoaderState :=
  let layers := Layers.kReflectionLayer
  let material := UberV2Create st.next_id
  let st0 : LoaderState := { st with next_id := st.next_id + 1 }
  let material := material.setInput "uberv2.reflection.ior" (InputMap.constantFloat 3)
  let material := material.setInput "uberv2.reflection.roughness" (InputMap.constantFloat (1 / 100))
  let material := material.setInput "uberv2.reflection.metalness" (InputMap.constantFloat 1)
  let r2 :=
    if mat.specular_texname ≠ "" then
      let texture := (LoadTexture decode basepath st0 mat.specular_texname).1
      let st2 := (LoadTexture decode basepath st0 mat.specular_texname).2
      (material.setInput "uberv2.reflecton.color" (gammaSampler texture), st2)
    else
      (material.setInput "uberv2.reflection.color" (InputMap.constantFloat3 mat.specular), st0)
  let r3 := applyBump decode basepath r2.2 mat r2.1 layers
  (r3.1.setLayers r3.2.1, r3.2.2)

/-- The diffuse + reflection branch (specular non-zero or a specular texture
named). The `else` before each flat-color write is commented out in the
source, so the flat diffuse and flat specular colors are written to their
slots unconditionally, after any texture write to the same slot. -/
def diffReflBranch (decode : String → Bool) (basepath : String) (st : LoaderState)
    (mat : material_t) : Material × LoaderState :=
  let layers := Layers.kDiffuseLayer.or Layers.kReflectionLayer
  let material := UberV2Create st.next_id
  let st0 : LoaderState := { st with next_id := st.next_id + 1 }
  let material := material.setInput "uberv2.reflection.ior" (InputMap.constantFloat 3)
  let material := material.setInput "uberv2.reflection.roughness" (InputMap.constantFloat (1 / 100))
  let material := material.setInput "uberv2.reflection.metalness" (InputMap.constantFloat 1)
  let r1 :=
    if mat.diffuse_texname ≠ "" then
      let texture := (LoadTexture decode basepath st0 mat.diffuse_texname).1
      let st1 := (LoadTexture decode basepath st0 mat.diffuse_texname).2
      (material.setInput "uberv2.diffuse.color" (gammaSampler texture), st1)
    else
      (material, st0)
  let material := r1.1.setInput "uberv2.diffuse.color" (InputMap.constantFloat3 mat.diffuse)
  let r2 :=
    if mat.specular_texname ≠ "" then
      let texture := (LoadTexture decode basepath r1.2 mat.specular_texname).1
      let st2 := (LoadTexture decode basepath r1.2 mat.specular_texname).2
      (material.setInput "uberv2.reflection.color" (gammaSampler texture), st2)
    else
      (material, r1.2)
  let material := r2.1.setInput "uberv2.reflection.color" (InputMap.constantFloat3 mat.specular)
  let r3 := applyBump decode basepath r2.2 mat material layers
  (r3.1.setLayers r3.2.1, r3.2.2)

/-- The diffuse-only fallback branch: diffuse albedo from the gamma-corrected
diffuse texture when named, else the flat diffuse color. -/
def diffBranch (decode : String → Bool) (basepath : String) (st : LoaderState)
    (mat : material_t) : Material × LoaderState :=
  let layers := Layers.kDiffuseLayer
  let material := UberV2Create st.next_id
  let st0 : LoaderState := { st with next_id := st.next_id + 1 }
  let r1 :=
    if mat.diffuse_texname ≠ "" then
      let texture := (LoadTexture decode basepath st0 mat.diffuse_texname).1
      let st1 := (LoadTexture decode basepath st0 mat.diffuse_texname).2
      (material.setInput "uberv2.diffuse.color" (gammaSampler texture), st1)
    else
      (material.setInput "uberv2.diffuse.color" (InputMap.constantFloat3 mat.diffuse), st0)
  let r3 := applyBump decode basepath r1.2 mat r1.1 layers
  (r3.1.setLayers r3.2.1, r3.2.2)

/-- The classification procedure of `TranslateMaterial`: the priority-ordered
branch dispatch on the raw material's color fields. -/
def classifyMaterial (decode : String → Bool) (basepath : String) (st : LoaderState)
    (mat : material_t) : Material × LoaderState :=
  if mat.emission.sqnorm > 0 then
    emissionBranch decode basepath st mat
  else if mat.transmittance.sqnorm > 0 ∧ mat.specular.sqnorm > 0 then
    refrDiffReflBranch decode basepath st mat
  else if mat.diffuse.sqnorm < 1 / 100 ∧ mat.specular.sqnorm > 0 then
    reflBranch decode basepath st mat
  else if mat.specular.sqnorm > 0 ∨ mat.specular_texname ≠ "" then
    diffReflBranch decode basepath st mat
  else
    diffBranch decode basepath st mat

/-- `SceneIoObj::TranslateMaterial`: return the cached material when the name
is already in `m_material_cache`; otherwise run the classification procedure,
stamp the produced material with the raw material's name, insert it into the
cache under that name, and return it. The ghost `translate_log` records each
run of the classification procedure. -/
def TranslateMaterial (decode : String → Bool) (basepath : String) (st : LoaderState)
    (mat : material_t) : Material × LoaderState :=
  match assocFind st.material_cache mat.name with
  | some material => (material, st)
  | none =>
    let st0 : LoaderState := { st with translate_log := st.translate_log ++ [mat.name] }
    let p := classifyMaterial decode basepath st0 mat
    let material := p.1.setName mat.name
    (material, { p.2 with material_cache := p.2.material_cache ++ [(mat.name, material)] })

/-- An area light over one triangle of a mesh, as `AreaLight::Create(mesh, l)`. -/
structure AreaLight where
  mesh : Mesh
  prim : Nat
deriving DecidableEq, Repr

/-- The emissive subset built while translating materials in `LoadScene`:
the materials for which `HasEmission()` holds. -/
def buildEmissives (materials : List Material) : List Material :=
  materials.filter (fun m => m.hasEmission)

/-- The area lights attached for one split mesh in `LoadScene`: when the mesh
has a material (`used_material >= 0`) that belongs to the emissive set, one
`AreaLight` per triangle `l < GetNumIndices() / 3`; otherwise none. -/
def areaLightsForMesh (materials : List Material) (emissives : List Material)
    (used_material : Int) (mesh : Mesh) : List AreaLight :=
  if 0 ≤ used_material ∧ materials.getD used_material.toNat Material.dummy ∈ emissives then
    (List.range (mesh.indices.length / 3)).map (fun l => ⟨mesh, l⟩)
  else
    []

theorem assocFind_eq_none_iff {α β : Type} [DecidableEq α] (l : List (α × β)) (k : α) :
    assocFind l k = none ↔ k ∉ l.map Prod.fst := by
  induction l with
  | nil => simp [assocFind]
  | cons p rest ih =>
    obtain ⟨a, b⟩ := p
    by_cases h : a = k
    · subst h
      simp [assocFind]
    · simp only [assocFind, if_neg h, ih, List.map_cons, List.mem_cons]
      have hka : ¬k = a := fun hk => h hk.symm
      tauto

theorem assocFind_some_mem_fst {α β : Type} [DecidableEq α] {l : List (α × β)} {k : α} {v : β}
    (h : assocFind l k = some v) : k ∈ l.map Prod.fst := by
  by_contra hk
  rw [← assocFind_eq_none_iff] at hk
  rw [hk] at h
  exact Option.noConfusion h

theorem assocFind_some_mem_snd {α β : Type} [DecidableEq α] {l : List (α × β)} {k : α} {v : β}
    (h : assocFind l k = some v) : v ∈ l.map Prod.snd := by
  induction l with
  | nil => exact absurd h (by simp [assocFind])
  | cons p rest ih =>
    obtain ⟨a, b⟩ := p
    simp only [assocFind] at h
    split at h
    · injection h with h
      subst h
      simp
    · simpa using Or.inr (ih h)

theorem assocFind_append_last {α β : Type} [DecidableEq α] {l : List (α × β)} {k : α} (v : β)
    (h : assocFind l k = none) : assocFind (l ++ [(k, v)]) k = some v := by
  induction l with
  | nil => simp [assocFind]
  | cons p rest ih =>
    obtain ⟨a, b⟩ := p
    simp only [assocFind] at h ⊢
    split at h
    · exact Option.noConfusion h
    · rename_i hak
      simp only [List.cons_append, assocFind, if_neg hak]
      exact ih h

theorem foldl_occ_mem (l : List ℕ) (acc : List ℕ) (x : ℕ) :
    x ∈ l.foldl (fun acc a => if a ∈ acc then acc else acc ++ [a]) acc ↔ x ∈ acc ∨ x ∈ l := by
  induction l generalizing acc with
  | nil => simp
  | cons a l ih =>
    simp only [List.foldl_cons]
    rw [ih]
    by_cases h : a ∈ acc
    · constructor
      · rintro (hx | hx)
        · simp only [if_pos h] at hx
          exact Or.inl hx
        · exact Or.inr (List.mem_cons_of_mem _ hx)
      · rintro (hx | hx)
        · exact Or.inl (by simp [if_pos h, hx])
        · rcases List.mem_cons.mp hx with rfl | hx
          · exact Or.inl (by simp [if_pos h, h])
          · exact Or.inr hx
    · simp only [if_neg h, List.mem_append, List.mem_singleton, List.mem_cons]
      tauto

theorem mem_firstOcc (l : List ℕ) (x : ℕ) : x ∈ firstOcc l ↔ x ∈ l := by
  simpa using foldl_occ_mem l [] x

theorem firstOcc_append_one (l : List ℕ) (a : ℕ) :
    firstOcc (l ++ [a]) = if a ∈ firstOcc l then firstOcc l else firstOcc l ++ [a] := by
  simp [firstOcc, List.foldl_append]

theorem foldl_occ_nodup (l : List ℕ) (acc : List ℕ) (h : acc.Nodup) :
    (l.foldl (fun acc a => if a ∈ acc then acc else acc ++ [a]) acc).Nodup := by
  induction l generalizing acc with
  | nil => simpa
  | cons a l ih =>
    simp only [List.foldl_cons]
    by_cases ha : a ∈ acc
    · simpa [if_pos ha] using ih acc h
    · refine ih _ ?_
      simp [if_neg ha, List.nodup_append, h, ha]

theorem firstOcc_nodup (l : List ℕ) : (firstOcc l).Nodup :=
  foldl_occ_nodup l [] List.nodup_nil

theorem firstOcc_length (l : List ℕ) : (firstOcc l).length = l.toFinset.card := by
  have ht : (firstOcc l).toFinset = l.toFinset := by
    ext x
    simp [mem_firstOcc]
  rw [← ht, List.toFinset_card_of_nodup (firstOcc_nodup l)]

/-- The invariant carried by the splitting loop, relating the state after
processing `refs` to the reference list itself. -/
structure SplitInv (shape : shape_t) (refs : List ℕ) (st : SplitState) : Prop where
  keys_eq : st.used_indices.map Prod.fst = firstOcc refs
  vals_eq : st.used_indices.map Prod.snd = List.range st.used_indices.length
  verts_len : st.vertices.length = 3 * st.used_indices.length
  norms_len : st.normals.length = 3 * st.used_indices.length
  tex_len : st.texcoords.length =
    (if shape.texcoords.isEmpty then 0 else 2 * st.used_indices.length)
  idx_len : st.indices.length = refs.length
  idx_lt : ∀ k ∈ st.indices, k < st.used_indices.length

theorem splitRun_append (shape : shape_t) (refs : List ℕ) (r : ℕ) :
    splitRun shape (refs ++ [r]) = processVertex shape (splitRun shape refs) r := by
  simp [splitRun, List.foldl_append]

theorem splitRun_inv (shape : shape_t) (refs : List ℕ) :
    SplitInv shape refs (splitRun shape refs) := by
  induction refs using List.reverseRecOn with
  | nil =>
    constructor <;> simp [splitRun, initSplit, firstOcc]
  | append_singleton refs r ih =>
    rw [splitRun_append]
    rcases hfind : assocFind (splitRun shape refs).used_indices r with _ | v
    · -- fresh original index: a new compact index is allocated
      have hfresh : r ∉ firstOcc refs := by
        rw [← ih.keys_eq]
        exact (assocFind_eq_none_iff _ _).mp hfind
      have hnew : (splitRun shape refs).vertices.length / 3
          = (splitRun shape refs).used_indices.length := by
        rw [ih.verts_len, Nat.mul_div_cancel_left _ (by norm_num)]
      constructor
      · simp only [processVertex, hfind, List.map_append, ih.keys_eq,
          firstOcc_append_one, if_neg hfresh, List.map_cons, List.map_nil]
      · simp only [processVertex, hfind, List.map_append, List.length_append,
          List.map_cons, List.map_nil, List.length_cons, List.length_nil, hnew,
          ih.vals_eq, List.range_succ]
      · simp only [processVertex, hfind, List.length_append]
        rw [ih.verts_len]
        simp only [List.length_append, List.length_cons, List.length_nil]
        omega
      · simp only [processVertex, hfind, List.length_append]
        rw [ih.norms_len]
        simp only [List.length_append, List.length_cons, List.length_nil]
        omega
      · simp only [processVertex, hfind]
        by_cases htex : shape.texcoords.isEmpty
        · simpa [htex] using ih.tex_len
        · have := ih.tex_len
          simp only [htex, if_false, Bool.false_eq_true] at this ⊢
          simp only [List.length_append, List.length_cons, List.length_nil, this]
          omega
      · simp only [processVertex, hfind, List.length_append, ih.idx_len,
          List.length_cons, List.length_nil, List.length_append]
      · intro k hk
        simp only [processVertex, hfind, List.mem_append, List.mem_singleton] at hk
        simp only [processVertex, hfind, List.length_append, List.length_cons,
          List.length_nil]
        rcases hk with hk | rfl
        · have := ih.idx_lt k hk
          omega
        · omega
    · -- already seen: only the compact index is pushed
      have hseen : r ∈ firstOcc refs := by
        rw [← ih.keys_eq]
        exact assocFind_some_mem_fst hfind
      have hvlt : v < (splitRun shape refs).used_indices.length := by
        have := assocFind_some_mem_snd hfind
        rw [ih.vals_eq] at this
        exact List.mem_range.mp this
      constructor
      · simpa [processVertex, hfind, firstOcc_append_one, if_pos hseen] using ih.keys_eq
      · simpa [processVertex, hfind] using ih.vals_eq
      · simpa [processVertex, hfind] using ih.verts_len
      · simpa [processVertex, hfind] using ih.norms_len
      · simpa [processVertex, hfind] using ih.tex_len
      · simp [processVertex, hfind, ih.idx_len]
      · intro k hk
        simp only [processVertex, hfind, List.mem_append, List.mem_singleton] at hk
        simp only [processVertex, hfind]
        rcases hk with hk | rfl
        · exact ih.idx_lt k hk
        · exact hvlt

theorem foldl_processFace (shape : shape_t) (mid : Int) (is : List ℕ) (st : SplitState) :
    is.foldl (processFace shape mid) st
      = (matchingRefs shape mid is).foldl (processVertex shape) st := by
  induction is generalizing st with
  | nil => simp [matchingRefs]
  | cons i is ih =>
    simp only [List.foldl_cons, matchingRefs, processFace]
    by_cases h : shape.material_ids.getD i 0 = mid
    · rw [if_pos h, if_pos h, List.foldl_append, ih]
    · rw [if_neg h, if_neg h, List.nil_append, ih]

theorem splitShape_eq_run (shape : shape_t) (mid : Int) :
    splitShape shape mid = splitRun shape (referencedIndices shape mid) := by
  simp [splitShape, splitRun, referencedIndices, foldl_processFace]

theorem splitShape_inv (shape : shape_t) (mid : Int) :
    SplitInv shape (referencedIndices shape mid) (splitShape shape mid) := by
  rw [splitShape_eq_run]
  exact splitRun_inv _ _

theorem faceRefs_length (shape : shape_t) (i : ℕ) :
    (faceRefs shape i).length = shape.num_vertices.getD i 0 := by
  simp [faceRefs]

theorem matchingRefs_length_three (shape : shape_t) (mid : Int) (is : List ℕ)
    (h : ∀ i ∈ is, shape.material_ids.getD i 0 = mid ∧ shape.num_vertices.getD i 0 = 3) :
    (matchingRefs shape mid is).length = 3 * is.length := by
  induction is with
  | nil => simp [matchingRefs]
  | cons i is ih =>
    have hi := h i (List.mem_cons_self i is)
    simp only [matchingRefs, List.length_append, List.length_cons]
    rw [if_pos hi.1, faceRefs_length, hi.2,
      ih (fun j hj => h j (List.mem_cons_of_mem _ hj))]
    ring

theorem matchingRefs_ne_nil (shape : shape_t) (mid : Int) (is : List ℕ) (i : ℕ)
    (hi : i ∈ is) (hmatch : shape.material_ids.getD i 0 = mid)
    (hfr : faceRefs shape i ≠ []) :
    matchingRefs shape mid is ≠ [] := by
  induction is with
  | nil => cases hi
  | cons j is ih =>
    rcases List.mem_cons.mp hi with rfl | hi
    · simp only [matchingRefs, if_pos hmatch]
      intro hcontra
      exact hfr (List.append_eq_nil.mp hcontra).1
    · simp only [matchingRefs]
      intro hcontra
      exact ih hi (List.append_eq_nil.mp hcontra).2

theorem splitShape_used_length (shape : shape_t) (mid : Int) :
    (splitShape shape mid).used_indices.length
      = (referencedIndices shape mid).toFinset.card := by
  have inv := splitShape_inv shape mid
  rw [← firstOcc_length, ← inv.keys_eq, List.length_map]

theorem buildMesh_vertexCount (shape : shape_t) (mid : Int) :
    (buildMesh shape mid).vertexCount = (splitShape shape mid).used_indices.length := by
  have inv := splitShape_inv shape mid
  simp only [buildMesh, Mesh.vertexCount]
  rw [inv.verts_len, Nat.mul_div_cancel_left _ (by norm_num)]

/-- Claim C2: the split mesh has exactly as many vertices as there are
distinct original vertex indices referenced by the faces matching the target
material id (deduplication is by original index, not by attribute value), and
the compact indices are assigned in order of first occurrence of each
original index: the old→new map lists the original indices in first-occurrence
order with new indices `0, 1, 2, …`. -/
theorem splitShape_dedup_by_original_index (shape : shape_t) (used_material : Int) :
    (buildMesh shape used_material).vertexCount
      = (referencedIndices shape used_material).toFinset.card
    ∧ (splitShape shape used_material).used_indices.map Prod.fst
      = firstOcc (referencedIndices shape used_material)
    ∧ (splitShape shape used_material).used_indices.map Prod.snd
      = List.range ((referencedIndices shape used_material).toFinset.card) := by
  have inv := splitShape_inv shape used_material
  refine ⟨?_, inv.keys_eq, ?_⟩
  · rw [buildMesh_vertexCount, splitShape_used_length]
  · rw [inv.vals_eq, splitShape_used_length]

/-- Claim C3: for a shape whose faces are all triangles all carrying the
target material id (the per-face arrays being parallel), the split mesh's
index buffer has length three times the face count, and every index in it is
strictly below the mesh's vertex count. -/
theorem splitShape_uniform_material_index_buffer (shape : shape_t) (mid : Int)
    (hids : ∀ m ∈ shape.material_ids, m = mid)
    (hnfv : ∀ n ∈ shape.num_vertices, n = 3)
    (hlen : shape.num_vertices.length = shape.material_ids.length) :
    (buildMesh shape mid).indices.length = 3 * shape.material_ids.length
    ∧ ∀ k ∈ (buildMesh shape mid).indices, k < (buildMesh shape mid).vertexCount := by
  have inv := splitShape_inv shape mid
  have hcond : ∀ i ∈ List.range shape.material_ids.length,
      shape.material_ids.getD i 0 = mid ∧ shape.num_vertices.getD i 0 = 3 := by
    intro i hi
    rw [List.mem_range] at hi
    have hi2 : i < shape.num_vertices.length := by omega
    constructor
    · rw [List.getD_eq_getElem _ _ hi]
      exact hids _ (List.getElem_mem hi)
    · rw [List.getD_eq_getElem _ _ hi2]
      exact hnfv _ (List.getElem_mem hi2)
  have hrefs : (referencedIndices shape mid).length = 3 * shape.material_ids.length := by
    rw [referencedIndices, matchingRefs_length_three shape mid _ hcond, List.length_range]
  have hidx : (buildMesh shape mid).indices = (splitShape shape mid).indices := rfl
  constructor
  · rw [hidx, inv.idx_len, hrefs]
  · intro k hk
    rw [hidx] at hk
    rw [buildMesh_vertexCount]
    exact inv.idx_lt k hk

/-- Claim C8: for a shape that carries no texcoord data, every mesh split from
it (for a material id that actually occurs, the faces being triangles) has a
UV buffer equal to `(0,0)` repeated once per vertex; in particular its length
equals the vertex count and it is not empty. -/
theorem splitShape_uv_zero_fill (shape : shape_t) (mid : Int)
    (htex : shape.texcoords = [])
    (hmem : mid ∈ shape.material_ids)
    (hnfv : ∀ n ∈ shape.num_vertices, n = 3)
    (hlen : shape.num_vertices.length = shape.material_ids.length) :
    (buildMesh shape mid).uvs
      = List.replicate ((buildMesh shape mid).vertexCount) (0, 0)
    ∧ (buildMesh shape mid).uvs.length = (buildMesh shape mid).vertexCount
    ∧ 0 < (buildMesh shape mid).vertexCount := by
  have inv := splitShape_inv shape mid
  have htex0 : (splitShape shape mid).texcoords.length = 0 := by
    have h := inv.tex_len
    rw [htex] at h
    simpa using h
  have huvs : (buildMesh shape mid).uvs
      = List.replicate ((splitShape shape mid).vertices.length / 3) (0, 0) := by
    simp only [buildMesh]
    rw [htex0]
    norm_num
  have hvc : (buildMesh shape mid).vertexCount
      = (splitShape shape mid).vertices.length / 3 := rfl
  have hpos : 0 < (buildMesh shape mid).vertexCount := by
    obtain ⟨i, hilen, hieq⟩ := List.mem_iff_getElem.mp hmem
    have hmatch : shape.material_ids.getD i 0 = mid := by
      rw [List.getD_eq_getElem _ _ hilen, hieq]
    have hflen : (faceRefs shape i).length = 3 := by
      have hi2 : i < shape.num_vertices.length := by omega
      rw [faceRefs_length, List.getD_eq_getElem _ _ hi2]
      exact hnfv _ (List.getElem_mem hi2)
    have hfr : faceRefs shape i ≠ [] := by
      intro hnil
      rw [hnil] at hflen
      simp at hflen
    have hne : referencedIndices shape mid ≠ [] :=
      matchingRefs_ne_nil shape mid _ i (List.mem_range.mpr hilen) hmatch hfr
    obtain ⟨x, hx⟩ := List.exists_mem_of_ne_nil _ hne
    have hxo : x ∈ firstOcc (referencedIndices shape mid) := (mem_firstOcc _ _).mpr hx
    have hfo : 0 < (firstOcc (referencedIndices shape mid)).length :=
      List.length_pos.mpr (List.ne_nil_of_mem hxo)
    have hkl := congrArg List.length inv.keys_eq
    rw [List.length_map] at hkl
    rw [buildMesh_vertexCount, hkl]
    exact hfo
  refine ⟨?_, ?_, hpos⟩
  · rw [huvs, hvc]
  · rw [huvs, List.length_replicate, hvc]

/-- A concrete two-triangle quad over four shared vertices, both faces on
material id 0, with no texcoord data. -/
def quadShape : shape_t :=
  ⟨[0, 0, 0, 1, 0, 0, 1, 1, 0, 0, 1, 0],
   [0, 0, 1, 0, 0, 1, 0, 0, 1, 0, 0, 1],
   [], [3, 3], [0, 1, 2, 0, 2, 3], [0, 0]⟩

theorem splitShape_uniform_material_index_buffer_witness :
    (∀ m ∈ quadShape.material_ids, m = 0)
    ∧ (∀ n ∈ quadShape.num_vertices, n = 3)
    ∧ quadShape.num_vertices.length = quadShape.material_ids.length
    ∧ ((buildMesh quadShape 0).indices.length = 3 * quadShape.material_ids.length
       ∧ ∀ k ∈ (buildMesh quadShape 0).indices, k < (buildMesh quadShape 0).vertexCount) :=
  ⟨by decide, by decide, by decide,
    splitShape_uniform_material_index_buffer quadShape 0 (by decide) (by decide) (by decide)⟩

theorem splitShape_uv_zero_fill_witness :
    quadShape.texcoords = [] ∧ (0 : Int) ∈ quadShape.material_ids
    ∧ ((buildMesh quadShape 0).uvs
        = List.replicate ((buildMesh quadShape 0).vertexCount) (0, 0)
       ∧ (buildMesh quadShape 0).uvs.length = (buildMesh quadShape 0).vertexCount
       ∧ 0 < (buildMesh quadShape 0).vertexCount) :=
  ⟨rfl, by decide,
    splitShape_uv_zero_fill quadShape 0 rfl (by decide) (by decide) (by decide)⟩

theorem LoadTexture_state (decode : String → Bool) (bp : String) (st : LoaderState)
    (name : String) :
    (LoadTexture decode bp st name).2.material_cache = st.material_cache
    ∧ (LoadTexture decode bp st name).2.translate_log = st.translate_log := by
  cases h : assocFind st.texture_cache name with
  | none => by_cases hd : decode (bp ++ name) <;> simp [LoadTexture, h, hd]
  | some t => simp [LoadTexture, h]

theorem applyBump_state (decode : String → Bool) (bp : String) (st : LoaderState)
    (mat : material_t) (m : Material) (l : Layers) :
    (applyBump decode bp st mat m l).2.2.material_cache = st.material_cache
    ∧ (applyBump decode bp st mat m l).2.2.translate_log = st.translate_log := by
  unfold applyBump
  split <;> simp [LoadTexture_state]

theorem classify_state (decode : String → Bool) (bp : String) (st : LoaderState)
    (mat : material_t) :
    (classifyMaterial decode bp st mat).2.material_cache = st.material_cache
    ∧ (classifyMaterial decode bp st mat).2.translate_log = st.translate_log := by
  unfold classifyMaterial emissionBranch refrDiffReflBranch reflBranch diffReflBranch diffBranch
  repeat' split
  all_goals simp [applyBump_state, LoadTexture_state]

theorem emissionBranch_layers (decode : String → Bool) (bp : String) (st : LoaderState)
    (mat : material_t) :
    (emissionBranch decode bp st mat).1.layers = Layers.kEmissionLayer := rfl

/-- Claim C1: a raw material whose emission color has positive squared norm
translates (on the first request for its name) to a material with exactly the
emission layer enabled and no diffuse, reflection, refraction or
shading-normal layer, regardless of its diffuse, specular, transmittance and
bump-texture fields. -/
theorem translateMaterial_emission_only (decode : String → Bool) (bp : String)
    (st : LoaderState) (mat : material_t)
    (hmiss : assocFind st.material_cache mat.name = none)
    (hem : mat.emission.sqnorm > 0) :
    (TranslateMaterial decode bp st mat).1.layers.emission = true
    ∧ (TranslateMaterial decode bp st mat).1.layers.diffuse = false
    ∧ (TranslateMaterial decode bp st mat).1.layers.reflection = false
    ∧ (TranslateMaterial decode bp st mat).1.layers.refraction = false
    ∧ (TranslateMaterial decode bp st mat).1.layers.shadingNormal = false := by
  have h1 : (TranslateMaterial decode bp st mat).1.layers = Layers.kEmissionLayer := by
    simp only [TranslateMaterial, hmiss]
    simp only [classifyMaterial, if_pos hem, Material.setName]
    rfl
  rw [h1]
  exact ⟨rfl, rfl, rfl, rfl, rfl⟩

/-- An emissive raw material that also carries non-zero diffuse and specular
colors and all three texture names. -/
def emissiveMat : material_t :=
  ⟨"emissive", ⟨1, 0, 0⟩, ⟨1, 1, 1⟩, ⟨0, 1, 0⟩, ⟨1, 0, 0⟩,
   "albedo.png", "spec.png", "bump.png"⟩

theorem translateMaterial_emission_only_witness :
    assocFind initLoader.material_cache emissiveMat.name = none
    ∧ emissiveMat.emission.sqnorm > 0
    ∧ (TranslateMaterial (fun _ => true) "base/" initLoader emissiveMat).1.layers.emission
        = true :=
  ⟨rfl, by norm_num [float3.sqnorm, emissiveMat],
    (translateMaterial_emission_only (fun _ => true) "base/" initLoader emissiveMat rfl
      (by norm_num [float3.sqnorm, emissiveMat])).1⟩

/-- Claim C6: translating a raw material whose name is not yet cached stamps
the produced material with that name, inserts it into the name-keyed cache
before returning it, and runs the classification procedure exactly once (the
ghost log grows by one entry); a second request for the same name returns the
identical material instance and leaves the loader state unchanged, so the
classification procedure is not re-evaluated. -/
theorem translateMaterial_cache_idempotent (decode : String → Bool) (bp : String)
    (st : LoaderState) (mat mat2 : material_t)
    (hmiss : assocFind st.material_cache mat.name = none)
    (hname : mat2.name = mat.name) :
    (TranslateMaterial decode bp st mat).1.name = mat.name
    ∧ assocFind (TranslateMaterial decode bp st mat).2.material_cache mat.name
        = some (TranslateMaterial decode bp st mat).1
    ∧ (TranslateMaterial decode bp st mat).2.translate_log
        = st.translate_log ++ [mat.name]
    ∧ TranslateMaterial decode bp (TranslateMaterial decode bp st mat).2 mat2
        = ((TranslateMaterial decode bp st mat).1,
           (TranslateMaterial decode bp st mat).2) := by
  have hc := classify_state decode bp
    { st with translate_log := st.translate_log ++ [mat.name] } mat
  have hmiss2 : assocFind (classifyMaterial decode bp
      { st with translate_log := st.translate_log ++ [mat.name] } mat).2.material_cache
      mat.name = none := by
    rw [hc.1]
    exact hmiss
  have hfound := assocFind_append_last
    ((classifyMaterial decode bp
        { st with translate_log := st.translate_log ++ [mat.name] } mat).1.setName mat.name)
    hmiss2
  simp only [TranslateMaterial, hmiss]
  refine ⟨rfl, hfound, hc.2, ?_⟩
  have hhit : assocFind
      ({ (classifyMaterial decode bp
            { st with translate_log := st.translate_log ++ [mat.name] } mat).2 with
          material_cache :=
            (classifyMaterial decode bp
              { st with translate_log := st.translate_log ++ [mat.name] } mat).2.material_cache
            ++ [(mat.name,
                  (classifyMaterial decode bp
                    { st with translate_log := st.translate_log ++ [mat.name] }
                    mat).1.setName mat.name)] }).material_cache mat2.name
      = some ((classifyMaterial decode bp
          { st with translate_log := st.translate_log ++ [mat.name] } mat).1.setName
            mat.name) := by
    rw [hname]
    exact hfound
  simp only [TranslateMaterial, hhit]

/-- A plain non-emissive, diffuse-only raw material with no textures. -/
def plainMat : material_t :=
  ⟨"plain", ⟨1 / 2, 1 / 2, 1 / 2⟩, ⟨0, 0, 0⟩, ⟨0, 0, 0⟩, ⟨0, 0, 0⟩, "", "", ""⟩

theorem translateMaterial_cache_idempotent_witness :
    assocFind initLoader.material_cache plainMat.name = none
    ∧ plainMat.name = plainMat.name
    ∧ (TranslateMaterial (fun _ => false) "base/" initLoader plainMat).1.name
        = plainMat.name :=
  ⟨rfl, rfl,
    (translateMaterial_cache_idempotent (fun _ => false) "base/" initLoader plainMat
      plainMat rfl rfl).1⟩

/-- Claim C10: the texture cache memoizes only successful decodes. For a name
not yet cached: when the decode fails, the null reference is returned, the
texture cache is unchanged (in particular contains no entry for the name),
and a later call for the same name hands the path to the decoder again; when
the decode succeeds, the decoded texture is cached under the name and a later
call for the name returns the very same instance with the state unchanged, so
no further decode is attempted. -/
theorem loadTexture_cache_success_only (decode : String → Bool) (bp : String)
    (st : LoaderState) (name : String)
    (hmiss : assocFind st.texture_cache name = none) :
    (decode (bp ++ name) = false →
      (LoadTexture decode bp st name).1 = none
      ∧ (LoadTexture decode bp st name).2.texture_cache = st.texture_cache
      ∧ assocFind (LoadTexture decode bp st name).2.texture_cache name = none
      ∧ (LoadTexture decode bp (LoadTexture decode bp st name).2 name).2.decode_log
          = st.decode_log ++ [bp ++ name, bp ++ name])
    ∧ (decode (bp ++ name) = true →
      (LoadTexture decode bp st name).1 = some ⟨name, st.next_id⟩
      ∧ assocFind (LoadTexture decode bp st name).2.texture_cache name
          = some ⟨name, st.next_id⟩
      ∧ LoadTexture decode bp (LoadTexture decode bp st name).2 name
          = (some ⟨name, st.next_id⟩, (LoadTexture decode bp st name).2)) := by
  constructor
  · intro hd
    have h1 : LoadTexture decode bp st name
        = (none, { st with decode_log := st.decode_log ++ [bp ++ name] }) := by
      simp [LoadTexture, hmiss, hd]
    rw [h1]
    refine ⟨rfl, rfl, hmiss, ?_⟩
    simp [LoadTexture, hmiss, hd]
  · intro hd
    have h1 : LoadTexture decode bp st name
        = (some ⟨name, st.next_id⟩,
           { st with
             decode_log := st.decode_log ++ [bp ++ name]
             texture_cache := st.texture_cache ++ [(name, ⟨name, st.next_id⟩)]
             next_id := st.next_id + 1 }) := by
      simp [LoadTexture, hmiss, hd]
    have hfound := assocFind_append_last (⟨name, st.next_id⟩ : Texture) hmiss
    rw [h1]
    refine ⟨rfl, hfound, ?_⟩
    simp only [LoadTexture, hfound]

theorem loadTexture_cache_success_only_witness :
    assocFind initLoader.texture_cache "t.png" = none
    ∧ (LoadTexture (fun _ => true) "base/" initLoader "t.png").1
        = some ⟨"t.png", initLoader.next_id⟩ :=
  ⟨rfl,
    ((loadTexture_cache_success_only (fun _ => true) "base/" initLoader "t.png" rfl).2
      rfl).1⟩

/-- Claim C7: a split mesh whose assigned material (`used_material >= 0`) lies
in the emissive set and whose index buffer has length `3 * K` yields exactly
`K` area lights, one per triangle `0, …, K-1` of the mesh; a mesh whose
material is not in the emissive set, or which has no material, contributes no
area light. -/
theorem areaLights_per_emissive_triangle (materials emissives : List Material)
    (used_material : Int) (mesh : Mesh) (K : ℕ)
    (hk : mesh.indices.length = 3 * K) :
    ((0 ≤ used_material
      → materials.getD used_material.toNat Material.dummy ∈ emissives
      → areaLightsForMesh materials emissives used_material mesh
          = (List.range K).map (fun l => ⟨mesh, l⟩)
        ∧ (areaLightsForMesh materials emissives used_material mesh).length = K)
     ∧ ((used_material < 0
        ∨ materials.getD used_material.toNat Material.dummy ∉ emissives)
      → areaLightsForMesh materials emissives used_material mesh = [])) := by
  constructor
  · intro hpos hmem
    have h1 : areaLightsForMesh materials emissives used_material mesh
        = (List.range (mesh.indices.length / 3)).map (fun l => ⟨mesh, l⟩) := by
      unfold areaLightsForMesh
      rw [if_pos ⟨hpos, hmem⟩]
    rw [h1, hk, Nat.mul_div_cancel_left K (by norm_num)]
    exact ⟨rfl, by simp⟩
  · intro h
    have hneg : ¬(0 ≤ used_material
        ∧ materials.getD used_material.toNat Material.dummy ∈ emissives) := by
      rcases h with h | h
      · intro hc
        exact absurd hc.1 (not_le.mpr h)
      · intro hc
        exact h hc.2
    unfold areaLightsForMesh
    rw [if_neg hneg]

/-- A concrete emissive material instance. -/
def glowMaterial : Material := ⟨7, "glow", [], Layers.kEmissionLayer⟩

/-- A concrete two-triangle mesh. -/
def glowMesh : Mesh :=
  ⟨[0, 0, 0, 1, 0, 0, 1, 1, 0, 0, 1, 0], [], [], [0, 1, 2, 0, 2, 3]⟩

theorem areaLights_per_emissive_triangle_witness :
    glowMesh.indices.length = 3 * 2
    ∧ (0 : Int) ≤ 0
    ∧ [glowMaterial].getD ((0 : Int)).toNat Material.dummy ∈ buildEmissives [glowMaterial]
    ∧ (areaLightsForMesh [glowMaterial] (buildEmissives [glowMaterial]) 0 glowMesh).length
        = 2 :=
  ⟨rfl, by norm_num, by decide,
    ((areaLights_per_emissive_triangle [glowMaterial] (buildEmissives [glowMaterial]) 0
        glowMesh 2 rfl).1 (by norm_num) (by decide)).2⟩

theorem diffReflBranch_final_colors (decode : String → Bool) (bp : String)
    (st : LoaderState) (mat : material_t) :
    (diffReflBranch decode bp st mat).1.getInput "uberv2.diffuse.color"
        = some (InputMap.constantFloat3 mat.diffuse)
    ∧ (diffReflBranch decode bp st mat).1.getInput "uberv2.reflection.color"
        = some (InputMap.constantFloat3 mat.specular) := by
  unfold diffReflBranch applyBump
  constructor <;>
  · repeat' split
    all_goals
      simp [Material.getInput, Material.setInput, Material.setLayers, assocFind]

/-- Claim C9: in the diffuse + reflection branch, the flat diffuse and flat
specular colors are written unconditionally after any texture writes to the
same slots (the `else` is commented out in the source), so the final values
of the `uberv2.diffuse.color` and `uberv2.reflection.color` slots are always
the flat constant colors, also when a diffuse or specular texture was
previously written there. -/
theorem diffuse_reflection_branch_flat_overwrite (decode : String → Bool) (bp : String)
    (st : LoaderState) (mat : material_t)
    (hmiss : assocFind st.material_cache mat.name = none)
    (hem : ¬(mat.emission.sqnorm > 0))
    (hrs : ¬(mat.transmittance.sqnorm > 0 ∧ mat.specular.sqnorm > 0))
    (hds : ¬(mat.diffuse.sqnorm < 1 / 100 ∧ mat.specular.sqnorm > 0))
    (hs4 : mat.specular.sqnorm > 0 ∨ mat.specular_texname ≠ "") :
    (TranslateMaterial decode bp st mat).1.getInput "uberv2.diffuse.color"
        = some (InputMap.constantFloat3 mat.diffuse)
    ∧ (TranslateMaterial decode bp st mat).1.getInput "uberv2.reflection.color"
        = some (InputMap.constantFloat3 mat.specular) := by
  simp only [TranslateMaterial, hmiss]
  simp only [classifyMaterial, if_neg hem, if_neg hrs, if_neg hds, if_pos hs4]
  exact diffReflBranch_final_colors decode bp _ mat

/-- A non-emissive raw material with non-zero diffuse and specular colors and
both a diffuse and a specular texture. -/
def shinyMat : material_t :=
  ⟨"shiny", ⟨1 / 2, 1 / 2, 1 / 2⟩, ⟨1, 1, 1⟩, ⟨0, 0, 0⟩, ⟨0, 0, 0⟩,
   "kd.png", "ks.png", ""⟩

theorem diffuse_reflection_branch_flat_overwrite_witness :
    assocFind initLoader.material_cache shinyMat.name = none
    ∧ ¬(shinyMat.emission.sqnorm > 0)
    ∧ (shinyMat.specular.sqnorm > 0 ∨ shinyMat.specular_texname ≠ "")
    ∧ (TranslateMaterial (fun _ => true) "base/" initLoader shinyMat).1.getInput
        "uberv2.diffuse.color" = some (InputMap.constantFloat3 shinyMat.diffuse) :=
  ⟨rfl, by norm_num [float3.sqnorm, shinyMat],
    Or.inl (by norm_num [float3.sqnorm, shinyMat]),
    (diffuse_reflection_branch_flat_overwrite (fun _ => true) "base/" initLoader shinyMat
      rfl (by norm_num [float3.sqnorm, shinyMat])
      (by norm_num [float3.sqnorm, shinyMat])
      (by norm_num [float3.sqnorm, shinyMat])
      (Or.inl (by norm_num [float3.sqnorm, shinyMat]))).1⟩

/-- A raw material with non-zero transmittance and specular (selecting the
refraction + diffuse + reflection branch) that names a specular texture. -/
def glassyMat : material_t :=
  ⟨"glassy", ⟨1 / 2, 1 / 2, 1 / 2⟩, ⟨1, 0, 0⟩, ⟨1, 0, 0⟩, ⟨0, 0, 0⟩,
   "", "ks.png", ""⟩

/-- Claim C5 (divergence at the failing input): in the refraction + diffuse +
reflection branch with a specular texture named, the source writes the
gamma-corrected specular sampler to the misspelled slot
`"uberv2.reflecton.color"`, leaving `"uberv2.reflection.color"` unset — the
flat-specular write only happens in the no-texture path. The refraction color
slot does receive the flat transmittance color. -/
theorem refr_branch_specular_texture_slot_typo :
    (TranslateMaterial (fun _ => true) "base/" initLoader glassyMat).1.getInput
        "uberv2.reflection.color" = none
    ∧ (TranslateMaterial (fun _ => true) "base/" initLoader glassyMat).1.getInput
        "uberv2.reflecton.color"
        = some (gammaSampler (some ⟨"ks.png", 1⟩))
    ∧ (TranslateMaterial (fun _ => true) "base/" initLoader glassyMat).1.getInput
        "uberv2.refraction.color"
        = some (InputMap.constantFloat3 glassyMat.transmittance) := by
  refine ⟨?_, ?_, ?_⟩ <;>
    norm_num [TranslateMaterial, classifyMaterial, refrDiffReflBranch, applyBump,
      LoadTexture, assocFind, Material.getInput, Material.setInput, Material.setName,
      Material.setLayers, UberV2Create, initLoader, glassyMat, float3.sqnorm,
      gammaSampler, gammaPower] <;>
    decide

theorem LoadTexture_fail (decode : String → Bool) (bp : String) (st : LoaderState)
    (name : String) (h1 : assocFind st.texture_cache name = none)
    (h2 : decode (bp ++ name) = false) :
    (LoadTexture decode bp st name).1 = none := by
  simp [LoadTexture, h1, h2]

theorem diffBranch_texture_slot (decode : String → Bool) (bp : String) (st : LoaderState)
    (mat : material_t) (htex : mat.diffuse_texname ≠ "")
    (hnone : (LoadTexture decode bp { st with next_id := st.next_id + 1 }
        mat.diffuse_texname).1 = none) :
    (diffBranch decode bp st mat).1.getInput "uberv2.diffuse.color"
      = some (gammaSampler none) := by
  simp only [diffBranch, if_pos htex, hnone]
  unfold applyBump
  split <;>
    simp [Material.getInput, Material.setInput, Material.setLayers, assocFind,
      UberV2Create]

/-- A non-emissive, diffuse-only raw material naming a diffuse texture that
will fail to decode. -/
def missingTexMat : material_t :=
  ⟨"mt", ⟨1 / 2, 1 / 4, 1 / 4⟩, ⟨0, 0, 0⟩, ⟨0, 0, 0⟩, ⟨0, 0, 0⟩,
   "missing.png", "", ""⟩

/-- Claim C4 (counterexample): with a diffuse texture named whose decode
fails, the diffuse color slot is not set from the flat diffuse color — the
loader never falls back to the flat color once a texture name is present. -/
theorem missing_texture_flat_fallback_cex :
    ¬((TranslateMaterial (fun _ => false) "base/" initLoader missingTexMat).1.getInput
        "uberv2.diffuse.color"
      = some (InputMap.constantFloat3 missingTexMat.diffuse)) := by
  norm_num [TranslateMaterial, classifyMaterial, diffBranch, applyBump, LoadTexture,
    assocFind, Material.getInput, Material.setInput, Material.setName,
    Material.setLayers, UberV2Create, initLoader, missingTexMat, float3.sqnorm,
    gammaSampler, gammaPower]
  decide

theorem emissionBranch_texture_slot (decode : String → Bool) (bp : String)
    (st : LoaderState) (mat : material_t) (htex : mat.diffuse_texname ≠ "")
    (hnone : (LoadTexture decode bp { st with next_id := st.next_id + 1 }
        mat.diffuse_texname).1 = none) :
    (emissionBranch decode bp st mat).1.getInput "uberv2.emission.color"
      = some (gammaSampler none) := by
  simp only [emissionBranch, if_pos htex, hnone]
  simp [Material.getInput, Material.setInput, Material.setLayers, assocFind,
    UberV2Create]

theorem refrDiffRefl_texture_slot (decode : String → Bool) (bp : String)
    (st : LoaderState) (mat : material_t) (htex : mat.diffuse_texname ≠ "")
    (hnone : (LoadTexture decode bp { st with next_id := st.next_id + 1 }
        mat.diffuse_texname).1 = none) :
    (refrDiffReflBranch decode bp st mat).1.getInput "uberv2.diffuse.color"
      = some (gammaSampler none) := by
  simp only [refrDiffReflBranch, if_pos htex, hnone]
  unfold applyBump
  repeat' split
  all_goals
    simp [Material.getInput, Material.setInput, Material.setLayers, assocFind,
      UberV2Create]

theorem reflBranch_no_diffuse (decode : String → Bool) (bp : String)
    (st : LoaderState) (mat : material_t) :
    (reflBranch decode bp st mat).1.getInput "uberv2.diffuse.color" = none := by
  unfold reflBranch applyBump
  repeat' split
  all_goals
    simp [Material.getInput, Material.setInput, Material.setLayers, assocFind,
      UberV2Create]

/-- Claim C4 (amended): when a raw material names a diffuse texture that is
not cached and whose decode fails, material translation still returns a
material stamped with the raw material's name (the load completes, no fatal
error), but the slot is not set from the flat color as if no texture had been
named: in the emission, refraction+diffuse+reflection and diffuse-only
branches the emission/diffuse color slot receives the gamma-corrected sampler
graph over the null texture reference; in the reflection-only branch no
diffuse color is written at all; only in the diffuse+reflection branch does
the slot end with the flat diffuse color, and that is the branch's
unconditional flat write after the texture write, not a fallback. -/
theorem missing_texture_null_sampler_slot (decode : String → Bool) (bp : String)
    (st : LoaderState) (mat : material_t)
    (hmiss : assocFind st.material_cache mat.name = none)
    (htex : mat.diffuse_texname ≠ "")
    (hnocache : assocFind st.texture_cache mat.diffuse_texname = none)
    (hfail : decode (bp ++ mat.diffuse_texname) = false) :
    (TranslateMaterial decode bp st mat).1.name = mat.name
    ∧ (mat.emission.sqnorm > 0 →
        (TranslateMaterial decode bp st mat).1.getInput "uberv2.emission.color"
          = some (gammaSampler none))
    ∧ (¬(mat.emission.sqnorm > 0)
       → mat.transmittance.sqnorm > 0 ∧ mat.specular.sqnorm > 0
       → (TranslateMaterial decode bp st mat).1.getInput "uberv2.diffuse.color"
          = some (gammaSampler none))
    ∧ (¬(mat.emission.sqnorm > 0)
       → ¬(mat.transmittance.sqnorm > 0 ∧ mat.specular.sqnorm > 0)
       → mat.diffuse.sqnorm < 1 / 100 ∧ mat.specular.sqnorm > 0
       → (TranslateMaterial decode bp st mat).1.getInput "uberv2.diffuse.color"
          = none)
    ∧ (¬(mat.emission.sqnorm > 0)
       → ¬(mat.transmittance.sqnorm > 0 ∧ mat.specular.sqnorm > 0)
       → ¬(mat.diffuse.sqnorm < 1 / 100 ∧ mat.specular.sqnorm > 0)
       → (mat.specular.sqnorm > 0 ∨ mat.specular_texname ≠ "")
       → (TranslateMaterial decode bp st mat).1.getInput "uberv2.diffuse.color"
          = some (InputMap.constantFloat3 mat.diffuse))
    ∧ (¬(mat.emission.sqnorm > 0)
       → ¬(mat.transmittance.sqnorm > 0 ∧ mat.specular.sqnorm > 0)
       → ¬(mat.diffuse.sqnorm < 1 / 100 ∧ mat.specular.sqnorm > 0)
       → ¬(mat.specular.sqnorm > 0 ∨ mat.specular_texname ≠ "")
       → (TranslateMaterial decode bp st mat).1.getInput "uberv2.diffuse.color"
          = some (gammaSampler none)) := by
  have hload := LoadTexture_fail decode bp
    { { st with translate_log := st.translate_log ++ [mat.name] } with
        next_id := st.next_id + 1 } mat.diffuse_texname hnocache hfail
  simp only [TranslateMaterial, hmiss]
  refine ⟨rfl, ?_, ?_, ?_, ?_, ?_⟩
  · intro hem
    simp only [classifyMaterial, if_pos hem]
    exact emissionBranch_texture_slot decode bp
      { st with translate_log := st.translate_log ++ [mat.name] } mat htex hload
  · intro hem hrs
    simp only [classifyMaterial, if_neg hem, if_pos hrs]
    exact refrDiffRefl_texture_slot decode bp
      { st with translate_log := st.translate_log ++ [mat.name] } mat htex hload
  · intro hem hrs hds
    simp only [classifyMaterial, if_neg hem, if_neg hrs, if_pos hds]
    exact reflBranch_no_diffuse decode bp
      { st with translate_log := st.translate_log ++ [mat.name] } mat
  · intro hem hrs hds hs4
    simp only [classifyMaterial, if_neg hem, if_neg hrs, if_neg hds, if_pos hs4]
    exact (diffReflBranch_final_colors decode bp
      { st with translate_log := st.translate_log ++ [mat.name] } mat).1
  · intro hem hrs hds hs4
    simp only [classifyMaterial, if_neg hem, if_neg hrs, if_neg hds, if_neg hs4]
    exact diffBranch_texture_slot decode bp
      { st with translate_log := st.translate_log ++ [mat.name] } mat htex hload

theorem missing_texture_null_sampler_slot_witness :
    assocFind initLoader.material_cache missingTexMat.name = none
    ∧ missingTexMat.diffuse_texname ≠ ""
    ∧ (fun _ => false : String → Bool) ("base/" ++ missingTexMat.diffuse_texname) = false
    ∧ (TranslateMaterial (fun _ => false) "base/" initLoader missingTexMat).1.name
        = missingTexMat.name
    ∧ (TranslateMaterial (fun _ => false) "base/" initLoader missingTexMat).1.getInput
        "uberv2.diffuse.color" = some (gammaSampler none) := by
  refine ⟨rfl, by decide, rfl, ?_, ?_⟩
  · exact (missing_texture_null_sampler_slot (fun _ => false) "base/" initLoader
      missingTexMat rfl (by decide) rfl rfl).1
  · exact (missing_texture_null_sampler_slot (fun _ => false) "base/" initLoader
      missingTexMat rfl (by decide) rfl rfl).2.2.2.2.2
      (by norm_num [float3.sqnorm, missingTexMat])
      (by norm_num [float3.sqnorm, missingTexMat])
      (by norm_num [float3.sqnorm, missingTexMat])
      (by norm_num [float3.sqnorm, missingTexMat])
